import Mathlib

/-!
Verification of the orangefs-purge retention walker (`src/orangefs-purge.c`,
2016 revision) against its natural-language specification.

The shallow embedding below translates the C source:
  * `purge_stats_s`, `options_s` mirror the C structs of the same names;
  * `is_eligible_for_removal` is the inline eligibility test at the heart of
    `walk_rdp_and_purge` (lines 561-562);
  * the byte-level path construction (memset / assignment / strncpy,
    lines 543-552) is modelled over buffers `Nat → Nat` of byte values;
  * `walk_rdp_and_purge` itself is modelled as a structurally recursive
    function over a tree whose nodes record the outcomes of the external
    PVFS calls (readdirplus batches, sys_attr_to_stat success, remove
    success); the C `ret` status variable is threaded faithfully, in
    particular a failed remove's stale negative value survives to the
    directory's return when the failure lands on the last entry of the
    final batch (lines 571-586, 658-671); the walk state carries, besides
    the nine counters, the log lines written to `logp`, the number of
    `PVFS_sys_remove` invocations, and ghost observation counters used
    only to state the accounting invariants (they do not influence
    control flow);
  * `PS_CORRECT_NAN` and the five `ps_*` report helpers (lines 272-336)
    are modelled over exact rationals (the C `float` arithmetic is
    idealized as exact division; the guard structure is identical);
  * the relevant fragments of `main` (dry-run environment override,
    removal-basis-time computation, log-file fallback, exit code) are
    modelled as small pure functions.
-/

/-- Mirror of `struct purge_stats_s` (nine uint64 counters; modelled as Nat,
uint64 wraparound is unreachable in any realizable run and not modelled). -/
structure purge_stats_s where
  rm_bytes : Nat
  rm_fils : Nat
  frm_bytes : Nat
  frm_fils : Nat
  kept_bytes : Nat
  kept_fils : Nat
  lnks : Nat
  dirs : Nat
  unknown : Nat
deriving DecidableEq, Repr

/-- Mirror of `struct options_s`. The C int flags become Bool; `log_dir`
is `none` when the option was not given (C NULL). -/
structure options_s where
  removal_basis_time : Int
  log_dir : Option String
  dry_run : Bool
  log_removed_files : Bool
  log_kept_files : Bool
deriving DecidableEq, Repr

/-- Initial value of the global `pstats` (all counters zero). -/
def pstats_init : purge_stats_s :=
  ⟨0, 0, 0, 0, 0, 0, 0, 0, 0⟩

/-- The eligibility test of `walk_rdp_and_purge` (part_001 lines 561-562):
`buf.st_atime < removal_basis_time && buf.st_mtime < removal_basis_time`.
Times are `time_t`/`PVFS_time` (signed), modelled as Int. -/
def is_eligible_for_removal (atime mtime removal_basis_time : Int) : Bool :=
  decide (atime < removal_basis_time) && decide (mtime < removal_basis_time)

/-- Mirror of the `PS_CORRECT_NAN` macro (lines 272-291): divide only when the
denominator is positive, otherwise return the replacement value `r`. The C
float arithmetic is idealized as exact rational arithmetic; the `psp == NULL`
guard has no counterpart because the Lean record cannot be null. -/
def PS_CORRECT_NAN (n : ℚ) (d : Nat) (r f : ℚ) : ℚ :=
  if 0 < d then (n / (d : ℚ)) * f else r

/-- Mirror of `ps_percent_bytes_removed` (lines 293-300). -/
def ps_percent_bytes_removed (psp : purge_stats_s) : ℚ :=
  PS_CORRECT_NAN (psp.rm_bytes : ℚ) (psp.rm_bytes + psp.frm_bytes + psp.kept_bytes) 0 100

/-- Mirror of `ps_percent_files_removed` (lines 302-309). -/
def ps_percent_files_removed (psp : purge_stats_s) : ℚ :=
  PS_CORRECT_NAN (psp.rm_fils : ℚ) (psp.rm_fils + psp.frm_fils + psp.kept_fils) 0 100

/-- Mirror of `ps_pre_purge_avg_file_size` (lines 311-318). -/
def ps_pre_purge_avg_file_size (psp : purge_stats_s) : ℚ :=
  PS_CORRECT_NAN ((psp.rm_bytes + psp.frm_bytes + psp.kept_bytes : Nat) : ℚ)
    (psp.rm_fils + psp.frm_fils + psp.kept_fils) 0 1

/-- Mirror of `ps_post_purge_avg_file_size` (lines 320-327). -/
def ps_post_purge_avg_file_size (psp : purge_stats_s) : ℚ :=
  PS_CORRECT_NAN ((psp.frm_bytes + psp.kept_bytes : Nat) : ℚ)
    (psp.frm_fils + psp.kept_fils) 0 1

/-- Mirror of `ps_purged_avg_file_size` (lines 329-336). -/
def ps_purged_avg_file_size (psp : purge_stats_s) : ℚ :=
  PS_CORRECT_NAN ((psp.rm_bytes : Nat) : ℚ) psp.rm_fils 0 1

/-- Mirror of the dry-run environment override in `main` (lines 738-750):
if the DRY_RUN variable is set, `dr = atoi(value)`; a non-zero `dr` sets
`opts.dry_run = 1`, and nothing else is changed. `env_val` is the atoi
result when the variable is present, `none` when it is absent. -/
def apply_dry_run_env (flag_dry_run : Bool) (env_val : Option Int) : Bool :=
  match env_val with
  | none => flag_dry_run
  | some dr => if dr ≠ 0 then true else flag_dry_run

/-- `THIRTYONE_DAYS_SECS` = 31 * DAY_SECS = 31 * 24*60*60 (lines 135-136). -/
def THIRTYONE_DAYS_SECS : Int := 31 * (24 * 60 * 60)

/-- Mirror of the removal-basis-time selection in `main` (lines 860-871):
a zero (unset) option means "current start time minus 31 days", any other
value is taken verbatim. Computed once, before the walk starts. -/
def compute_removal_basis_time (opts : options_s) (current_time : Int) : Int :=
  if opts.removal_basis_time = 0 then current_time - THIRTYONE_DAYS_SECS
  else opts.removal_basis_time

/-- Mirror of the `purge_success` line written at the end of `main`
(lines 918-928): "true" exactly when the walk returned 0. -/
def purge_success (ret : Int) : Bool := ret == 0

/-- Mirror of `main`'s process exit code (lines 918-928): 0 when the walk
returned 0, otherwise 1. -/
def process_exit_code (ret : Int) : Int := if ret == 0 then 0 else 1

/-!
Byte-level model of the per-entry path construction inside
`walk_rdp_and_purge` (part_001 lines 543-552, identical in
`src/orangefs-purge.c` lines 462-473):

    memset(&dirent_path[dir_len], 0, PVFS_PATH_MAX - dir_len);
    dirent_path[dir_len] = '/';
    strncpy(&dirent_path[dir_len + 1], d_name, PATH_MAX - 1 - dir_len - 1);

A buffer is a total function from byte index to byte value; C strings are
lists of non-zero bytes, terminated in the buffer by a 0 byte.
-/

/-- The byte value of the `/` path separator. -/
def slashByte : Nat := 47

/-- `memset(&buf[off], 0, len)`: zero the `len` bytes starting at `off`. -/
def memsetZero (buf : Nat → Nat) (off len : Nat) : Nat → Nat :=
  fun i => if off ≤ i ∧ i < off + len then 0 else buf i

/-- Single byte store `buf[i] = v`. -/
def setByte (buf : Nat → Nat) (i v : Nat) : Nat → Nat :=
  fun j => if j = i then v else buf j

/-- `strncpy(&buf[off], src, n)` where `src` is the content of a
NUL-terminated C string (bytes before its terminator): at most `n` bytes are
written; source bytes are copied up to the source's first 0 byte (or its
end), and the remainder of the `n` bytes is zero-filled. -/
def strncpyAt (buf : Nat → Nat) (off : Nat) (src : List Nat) (n : Nat) : Nat → Nat :=
  fun i =>
    if off ≤ i ∧ i < off + n then
      if i - off < min (src.findIdx (fun c => c == 0)) n then src.getD (i - off) 0
      else 0
    else buf i

/-- The three buffer operations the walker performs for each entry: zero the
tail of the buffer after the parent path, write the separator, copy the
child's name. `pvfs_path_max` is `PVFS_PATH_MAX` (memset extent),
`path_max` is `PATH_MAX` (strncpy bound), both platform header constants. -/
def build_child_path (pvfs_path_max path_max : Nat) (buf : Nat → Nat)
    (dir_len : Nat) (d_name : List Nat) : Nat → Nat :=
  strncpyAt (setByte (memsetZero buf dir_len (pvfs_path_max - dir_len)) dir_len slashByte)
    (dir_len + 1) d_name (path_max - 1 - dir_len - 1)

/-- Read the C string stored in `buf` starting at index `i`, scanning at
most `fuel` bytes: the bytes up to (excluding) the first 0 byte. -/
def readCStrFrom (buf : Nat → Nat) : Nat → Nat → List Nat
  | _, 0 => []
  | i, fuel + 1 => if buf i = 0 then [] else buf i :: readCStrFrom buf (i + 1) fuel

/-- The C string stored at the start of `buf` (scan bound `fuel`). -/
def readCStr (buf : Nat → Nat) (fuel : Nat) : List Nat :=
  readCStrFrom buf 0 fuel

/-!
Model of `walk_rdp_and_purge` (part_001 lines 454-672).

The walker's environment (the OrangeFS store) is a tree whose nodes record
the outcome of every external call the walker makes on it:
  * `FsObj.file` carries size, atime, mtime and whether `PVFS_sys_remove`
    would succeed on it;
  * `FsObj.dir` carries the sequence of `PVFS_sys_readdirplus` results for
    that directory: each batch either fails (`BatchList.fail`, ret < 0),
    returns entries with a continuation token (`BatchList.more`), or
    returns the final entries with token `PVFS_ITERATE_END`
    (`BatchList.last`);
  * each entry records its `d_name` and whether `sys_attr_to_stat`
    succeeds on it (it fails iff the handle/fs_id are null, lines 387-393).
-/

mutual

inductive FsObj : Type where
  | file (size : Nat) (atime mtime : Int) (removeOk : Bool) : FsObj
  | dir (batches : BatchList) : FsObj
  | symlink : FsObj
  | otherKind : FsObj

inductive BatchList : Type where
  | last (es : EntryList) : BatchList
  | more (es : EntryList) (rest : BatchList) : BatchList
  | fail : BatchList

inductive EntryList : Type where
  | nil : EntryList
  | cons (d_name : String) (statOk : Bool) (obj : FsObj) (rest : EntryList) : EntryList

end

/-- Walk state: the global `pstats`, the log-file lines written so far
(`logp`), the number of `PVFS_sys_remove` invocations, plus ghost
observation fields used only to state the specification's accounting
invariants: `visFiles`/`visBytes` count the regular-file entries (and their
bytes) dispatched, `visDirs` the directory entries dispatched, and
`basisUsed` records the removal-basis value consulted at each eligibility
decision. The ghost fields never influence control flow. -/
structure WalkSt where
  ps : purge_stats_s
  log : List String
  removeCalls : Nat
  visFiles : Nat
  visBytes : Nat
  visDirs : Nat
  basisUsed : List Int
deriving DecidableEq, Repr

/-- Walk state at the start of a run: zero counters, nothing logged. -/
def walkSt_init : WalkSt :=
  ⟨pstats_init, [], 0, 0, 0, 0, []⟩

mutual

/-- Model of `walk_rdp_and_purge` on the batch loop (`while(1)`,
lines 491-665), threading the C `ret` status variable faithfully: a failed
`PVFS_sys_readdirplus` returns -1 immediately (lines 504-512); a
successful listing call assigns `ret = 0` before the batch's entries are
processed; a token of `PVFS_ITERATE_END` breaks out of the loop and the
function returns the CURRENT value of `ret` (lines 658-671) — which is
still the remove call's stale negative value when the final entry of this
final batch was an eligible file whose `PVFS_sys_remove` failed; when the
token is not `PVFS_ITERATE_END` the loop continues and the next listing
call overwrites `ret`. -/
def walk_rdp_and_purge (o : options_s) (basis : Int) (path : String) (st : WalkSt) :
    BatchList → Int × WalkSt
  | .fail => (-1, st)
  | .last es =>
    match walk_rdp_entries o basis path 0 st es with
    | .inl r => r
    | .inr r => r
  | .more es rest =>
    match walk_rdp_entries o basis path 0 st es with
    | .inl r => r
    | .inr (_, st') => walk_rdp_and_purge o basis path st' rest
termination_by structural bs => bs

/-- The `for` loop over one batch's entries (lines 518-641), threading the
C `ret` variable: `retc` is its value entering this iteration of the loop.
A `sys_attr_to_stat` failure aborts the level with ret -1 (lines 532-541);
otherwise the entry is dispatched on its kind and the loop continues with
the entry's final `ret`. `.inl` means the directory level aborted with the
given (ret, state); `.inr` carries (ret, state) after the last entry —
`ret` is negative exactly when the last processed entry was a failed
removal, since every other dispatch leaves it 0. -/
def walk_rdp_entries (o : options_s) (basis : Int) (path : String) (retc : Int) (st : WalkSt) :
    EntryList → (Int × WalkSt) ⊕ (Int × WalkSt)
  | .nil => .inr (retc, st)
  | .cons d_name statOk obj rest =>
    if statOk then
      match walk_one o basis path st d_name obj with
      | .inl r => .inl r
      | .inr (re, st') => walk_rdp_entries o basis path re st' rest
    else
      .inl (-1, st)

/-- Dispatch of one classified entry (lines 557-637), returning in `.inr`
the value the C `ret` variable holds after the entry. The child's absolute
path is the parent path, one separator, and the entry name (the byte-level
construction is modelled separately by `build_child_path`). Regular file:
the eligibility test decides removed vs kept; outside a dry run an
eligible file triggers one `PVFS_sys_remove`, whose failure books the file
under the failed-to-remove pair and continues with `ret` left at the
call's negative result, modelled as -1 (lines 571-586); every other file
outcome leaves `ret` at the 0 assigned by this entry's successful
`sys_attr_to_stat`. Directory: `pstats.dirs++` then recursion; a non-zero
recursive ret makes the whole level return -1 at once (lines 618-623),
and a successful recursion leaves `ret = 0`. Symlink / unrecognized kinds
only bump their counters. -/
def walk_one (o : options_s) (basis : Int) (path : String) (st : WalkSt) (d_name : String) :
    FsObj → (Int × WalkSt) ⊕ (Int × WalkSt)
  | .file size atime mtime removeOk =>
    let st1 : WalkSt := { st with visFiles := st.visFiles + 1, visBytes := st.visBytes + size,
                                  basisUsed := st.basisUsed ++ [basis] }
    if is_eligible_for_removal atime mtime basis then
      let st2 : WalkSt :=
        if o.log_removed_files then
          { st1 with log := st1.log ++ ["R\t" ++ path ++ "/" ++ d_name] }
        else st1
      if o.dry_run then
        .inr (0, { st2 with ps := { st2.ps with rm_fils := st2.ps.rm_fils + 1,
                                                rm_bytes := st2.ps.rm_bytes + size } })
      else
        let st3 : WalkSt := { st2 with removeCalls := st2.removeCalls + 1 }
        if removeOk then
          .inr (0, { st3 with ps := { st3.ps with rm_fils := st3.ps.rm_fils + 1,
                                                  rm_bytes := st3.ps.rm_bytes + size } })
        else
          .inr (-1, { st3 with ps := { st3.ps with frm_fils := st3.ps.frm_fils + 1,
                                                   frm_bytes := st3.ps.frm_bytes + size } })
    else
      let st2 : WalkSt :=
        if o.log_kept_files then
          { st1 with log := st1.log ++ ["K\t" ++ path ++ "/" ++ d_name] }
        else st1
      .inr (0, { st2 with ps := { st2.ps with kept_fils := st2.ps.kept_fils + 1,
                                              kept_bytes := st2.ps.kept_bytes + size } })
  | .dir batches =>
    let st1 : WalkSt := { st with ps := { st.ps with dirs := st.ps.dirs + 1 },
                                  visDirs := st.visDirs + 1 }
    match walk_rdp_and_purge o basis (path ++ "/" ++ d_name) st1 batches with
    | (r, st2) => if r = 0 then .inr (0, st2) else .inl (-1, st2)
  | .symlink => .inr (0, { st with ps := { st.ps with lnks := st.ps.lnks + 1 } })
  | .otherKind => .inr (0, { st with ps := { st.ps with unknown := st.ps.unknown + 1 } })

end

/-- The walk state carried by either outcome of a directory level: the
state at the abort point for `.inl`, the state after the last entry for
`.inr`. -/
def stepState : (Int × WalkSt) ⊕ (Int × WalkSt) → WalkSt
  | .inl (_, s) => s
  | .inr (_, s) => s

/-- Pointwise `≤` on all nine counters of `purge_stats_s`. -/
def StatsMono (a b : purge_stats_s) : Prop :=
  a.rm_bytes ≤ b.rm_bytes ∧ a.rm_fils ≤ b.rm_fils ∧
  a.frm_bytes ≤ b.frm_bytes ∧ a.frm_fils ≤ b.frm_fils ∧
  a.kept_bytes ≤ b.kept_bytes ∧ a.kept_fils ≤ b.kept_fils ∧
  a.lnks ≤ b.lnks ∧ a.dirs ≤ b.dirs ∧ a.unknown ≤ b.unknown

/-- Accounting relation between a walk state and a later walk state:
counters grew monotonically, the growth of `rm_fils + frm_fils + kept_fils`
equals the number of regular-file entries dispatched in between, the growth
of the three byte counters equals the bytes of those files, and the growth
of `dirs` equals the number of directory entries dispatched. -/
def Accounted (s s' : WalkSt) : Prop :=
  StatsMono s.ps s'.ps ∧
  s'.ps.rm_fils + s'.ps.frm_fils + s'.ps.kept_fils + s.visFiles
    = s.ps.rm_fils + s.ps.frm_fils + s.ps.kept_fils + s'.visFiles ∧
  s'.ps.rm_bytes + s'.ps.frm_bytes + s'.ps.kept_bytes + s.visBytes
    = s.ps.rm_bytes + s.ps.frm_bytes + s.ps.kept_bytes + s'.visBytes ∧
  s'.ps.dirs + s.visDirs = s.ps.dirs + s'.visDirs

/-- Two walk states that agree on everything except the number of
`PVFS_sys_remove` invocations. -/
def AgreesExceptRemoveCalls (s1 s2 : WalkSt) : Prop :=
  s1.ps = s2.ps ∧ s1.log = s2.log ∧ s1.visFiles = s2.visFiles ∧
  s1.visBytes = s2.visBytes ∧ s1.visDirs = s2.visDirs ∧ s1.basisUsed = s2.basisUsed

/-- Relation between the outcomes of a dry run and a real run of one
directory-level step: both abort or both continue, with the same return
value, states agreeing except for remove calls, and the dry-run side's
remove-call count still at its starting value `calls1`. -/
def SumAgrees (calls1 : Nat) :
    (Int × WalkSt) ⊕ (Int × WalkSt) → (Int × WalkSt) ⊕ (Int × WalkSt) → Prop
  | .inl (r1, s1), .inl (r2, s2) =>
    r1 = r2 ∧ AgreesExceptRemoveCalls s1 s2 ∧ s1.removeCalls = calls1
  | .inr (r1, s1), .inr (r2, s2) =>
    r1 = r2 ∧ AgreesExceptRemoveCalls s1 s2 ∧ s1.removeCalls = calls1
  | _, _ => False

/-- `SumAgrees` for the (ret, state) pairs returned by a whole directory
walk. -/
def PairAgrees (calls1 : Nat) (p1 p2 : Int × WalkSt) : Prop :=
  p1.1 = p2.1 ∧ AgreesExceptRemoveCalls p1.2 p2.2 ∧ p1.2.removeCalls = calls1

mutual

/-- True when `PVFS_sys_remove` would succeed on every file of the tree
(the remote store raises no removal errors during the run). -/
def removalsOkObj : FsObj → Bool
  | .file _ _ _ removeOk => removeOk
  | .dir batches => removalsOkBatches batches
  | .symlink => true
  | .otherKind => true

/-- `removalsOkObj` over every entry of every batch. -/
def removalsOkBatches : BatchList → Bool
  | .last es => removalsOkEntries es
  | .more es rest => removalsOkEntries es && removalsOkBatches rest
  | .fail => true

/-- `removalsOkObj` over a list of entries. -/
def removalsOkEntries : EntryList → Bool
  | .nil => true
  | .cons _ _ obj rest => removalsOkObj obj && removalsOkEntries rest

end

/-!
Model of the fragments of `main` after the walk target is resolved
(part_001 lines 855-929): log-file naming and fallback, the header and
trailer lines, and the process exit code.
-/

/-- Where the run's log lines end up: the run's log file, or the standard
error stream when that file could not be opened. -/
inductive LogSink : Type where
  | logFile (path : String) : LogSink
  | stderrStream : LogSink
deriving DecidableEq, Repr

/-- `DEFAULT_LOG_DIR` (line 132). -/
def DEFAULT_LOG_DIR : String := "/var/log/orangefs-purge"

/-- The log file path built by the snprintf at lines 876-881:
`<log_dir>/<start_epoch>-<basename>.log`, where `log_dir` falls back to
`DEFAULT_LOG_DIR` when the option was not given. -/
def log_path (log_dir : Option String) (current_time : Nat) (base : String) : String :=
  (log_dir.getD DEFAULT_LOG_DIR) ++ "/" ++ toString current_time ++ "-" ++ base ++ ".log"

/-- The nine counter lines written by `log_pstats` (lines 238-262). -/
def log_pstats_lines (psp : purge_stats_s) : List String :=
  ["removed_bytes\t" ++ toString psp.rm_bytes,
   "removed_files\t" ++ toString psp.rm_fils,
   "failed_removed_bytes\t" ++ toString psp.frm_bytes,
   "failed_removed_files\t" ++ toString psp.frm_fils,
   "kept_bytes\t" ++ toString psp.kept_bytes,
   "kept_files\t" ++ toString psp.kept_fils,
   "directories\t" ++ toString psp.dirs,
   "symlinks\t" ++ toString psp.lnks,
   "unknown\t" ++ toString psp.unknown]

/-- The five derived-metric lines written by `log_pstats_more`
(lines 338-354). -/
def log_pstats_more_lines (psp : purge_stats_s) : List String :=
  ["percent_bytes_removed\t" ++ toString (ps_percent_bytes_removed psp),
   "percent_files_removed\t" ++ toString (ps_percent_files_removed psp),
   "pre_purge_avg_file_size\t" ++ toString (ps_pre_purge_avg_file_size psp),
   "post_purge_avg_file_size\t" ++ toString (ps_post_purge_avg_file_size psp),
   "purged_avg_file_size\t" ++ toString (ps_purged_avg_file_size psp)]

/-- Observable outcome of one run of `main` from the point where the log
file is opened: the sink the log lines went to, the stderr diagnostics of
the open failure, the log lines in order, the walk's return value and
final counters, and the process exit code. The human-readable ctime
strings are left out (they come from the C library, not this program). -/
structure RunOutput : Type where
  sink : LogSink
  diagnostics : List String
  sinkLines : List String
  ret : Int
  stats : purge_stats_s
  exitCode : Int
deriving Repr

/-- Model of `main` from the fopen of the log (lines 876-896) to the end:
`openOk` is whether `fopen(log_path, "w")` succeeded; on failure a
diagnostic goes to stderr and `logp` becomes stderr, and everything else
is unchanged. `dir` is the target argument, `base` its basename,
`current_time`/`finish_time` the two `get_current_time()` readings, and
`basis` the removal basis time computed before this point. -/
def main_run (openOk : Bool) (o : options_s) (dir base : String)
    (current_time finish_time : Nat) (basis : Int) (bs : BatchList) : RunOutput :=
  let wr := walk_rdp_and_purge o basis dir walkSt_init bs
  { sink := if openOk then .logFile (log_path o.log_dir current_time base) else .stderrStream
    diagnostics :=
      if openOk then []
      else ["ERROR: Couldn't open orangefs-purge log. Now logging to stderr!"]
    sinkLines :=
      ["directory\t" ++ dir,
       "dry_run\t" ++ (if o.dry_run then "true" else "false"),
       "current_time\t" ++ toString current_time,
       "removal_basis_time\t" ++ toString basis]
      ++ wr.2.log
      ++ ["finish_time\t" ++ toString finish_time,
          "duration_seconds\t" ++ toString (finish_time - current_time)]
      ++ log_pstats_lines wr.2.ps
      ++ log_pstats_more_lines wr.2.ps
      ++ ["purge_success\t" ++ (if purge_success wr.1 then "true" else "false")]
    ret := wr.1
    stats := wr.2.ps
    exitCode := process_exit_code wr.1 }




/-!
Theorems. Each claim's theorem carries the claim id in its doc comment;
helper lemmas precede the claim theorems that need them.
-/

/-- C1: the retention policy is a pure decision: a regular file is eligible
for removal iff both its access time and its modify time are strictly less
than the removal basis time; equality of either time to the basis never
yields removal. -/
theorem is_eligible_iff_both_strictly_less (atime mtime basis : Int) :
    (is_eligible_for_removal atime mtime basis = true ↔ (atime < basis ∧ mtime < basis)) ∧
    ((atime = basis ∨ mtime = basis) → is_eligible_for_removal atime mtime basis = false) := by
  constructor
  · simp [is_eligible_for_removal]
  · rintro (rfl | rfl) <;> simp [is_eligible_for_removal]

/-- Witness for C1: a file whose times both predate the basis is eligible;
a file whose access time equals the basis is not. -/
theorem is_eligible_iff_both_strictly_less_inst :
    is_eligible_for_removal 1 2 5 = true ∧ is_eligible_for_removal 5 1 5 = false :=
  ⟨(is_eligible_iff_both_strictly_less 1 2 5).1.mpr (by constructor <;> norm_num),
   (is_eligible_iff_both_strictly_less 5 1 5).2 (Or.inl rfl)⟩

/-- C7: each of the five derived report ratios equals its stated quotient
when its denominator is positive and equals exactly 0 when its denominator
is 0; no error or not-a-number value is ever produced (the functions are
total). -/
theorem report_safe_division (p : purge_stats_s) :
    (p.rm_bytes + p.frm_bytes + p.kept_bytes = 0 → ps_percent_bytes_removed p = 0) ∧
    (0 < p.rm_bytes + p.frm_bytes + p.kept_bytes →
      ps_percent_bytes_removed p
        = ((p.rm_bytes : ℚ) / ((p.rm_bytes + p.frm_bytes + p.kept_bytes : Nat) : ℚ)) * 100) ∧
    (p.rm_fils + p.frm_fils + p.kept_fils = 0 → ps_percent_files_removed p = 0) ∧
    (0 < p.rm_fils + p.frm_fils + p.kept_fils →
      ps_percent_files_removed p
        = ((p.rm_fils : ℚ) / ((p.rm_fils + p.frm_fils + p.kept_fils : Nat) : ℚ)) * 100) ∧
    (p.rm_fils + p.frm_fils + p.kept_fils = 0 → ps_pre_purge_avg_file_size p = 0) ∧
    (0 < p.rm_fils + p.frm_fils + p.kept_fils →
      ps_pre_purge_avg_file_size p
        = ((p.rm_bytes + p.frm_bytes + p.kept_bytes : Nat) : ℚ)
            / ((p.rm_fils + p.frm_fils + p.kept_fils : Nat) : ℚ)) ∧
    (p.frm_fils + p.kept_fils = 0 → ps_post_purge_avg_file_size p = 0) ∧
    (0 < p.frm_fils + p.kept_fils →
      ps_post_purge_avg_file_size p
        = ((p.frm_bytes + p.kept_bytes : Nat) : ℚ) / ((p.frm_fils + p.kept_fils : Nat) : ℚ)) ∧
    (p.rm_fils = 0 → ps_purged_avg_file_size p = 0) ∧
    (0 < p.rm_fils → ps_purged_avg_file_size p = ((p.rm_bytes : Nat) : ℚ) / ((p.rm_fils : Nat) : ℚ)) := by
  refine ⟨?_, ?_, ?_, ?_, ?_, ?_, ?_, ?_, ?_, ?_⟩ <;> intro h <;>
    simp [ps_percent_bytes_removed, ps_percent_files_removed, ps_pre_purge_avg_file_size,
          ps_post_purge_avg_file_size, ps_purged_avg_file_size, PS_CORRECT_NAN, h,
          Nat.pos_iff_ne_zero, mul_comm]

/-- Witness for C7: on the all-zero statistics of an empty tree every
denominator is 0 and all five ratios are exactly 0. -/
theorem report_safe_division_inst :
    ps_percent_bytes_removed pstats_init = 0 ∧ ps_percent_files_removed pstats_init = 0 ∧
    ps_pre_purge_avg_file_size pstats_init = 0 ∧ ps_post_purge_avg_file_size pstats_init = 0 ∧
    ps_purged_avg_file_size pstats_init = 0 :=
  ⟨(report_safe_division pstats_init).1 rfl,
   (report_safe_division pstats_init).2.2.1 rfl,
   (report_safe_division pstats_init).2.2.2.2.1 rfl,
   (report_safe_division pstats_init).2.2.2.2.2.2.1 rfl,
   (report_safe_division pstats_init).2.2.2.2.2.2.2.2.1 rfl⟩

/-- C9: the effective dry-run setting is on iff the command-line flag was
given or the environment value is non-zero; a non-zero environment value
forces it on, and a zero or absent value never turns it off once the flag
enabled it. -/
theorem dry_run_env_monotone (flag : Bool) (env_val : Option Int) :
    apply_dry_run_env flag env_val = (flag || decide (env_val.getD 0 ≠ 0)) ∧
    (flag = true → apply_dry_run_env flag env_val = true) ∧
    (∀ v : Int, v ≠ 0 → apply_dry_run_env false (some v) = true) := by
  refine ⟨?_, ?_, ?_⟩
  · cases env_val with
    | none => simp [apply_dry_run_env]
    | some v => by_cases hv : v = 0 <;> simp [apply_dry_run_env, hv]
  · intro hf
    subst hf
    cases env_val with
    | none => rfl
    | some v => by_cases hv : v = 0 <;> simp [apply_dry_run_env, hv]
  · intro v hv
    simp [apply_dry_run_env, hv]

/-- Witness for C9: DRY_RUN=1 forces dry-run on without the flag, and
DRY_RUN=0 does not turn it off when the flag enabled it. -/
theorem dry_run_env_monotone_inst :
    apply_dry_run_env false (some 1) = true ∧ apply_dry_run_env true (some 0) = true :=
  ⟨(dry_run_env_monotone false (some 1)).2.2 1 one_ne_zero,
   (dry_run_env_monotone true (some 0)).2.1 rfl⟩

/-- C10: when opening the run's log file `<log_dir>/<epoch>-<basename>.log`
fails, the program emits a diagnostic, sends every log line (header,
per-file R/K lines, counters, purge_success) to the standard error stream
instead, and the run's walk, counters and exit code are exactly those of a
run with a working log file. -/
theorem log_open_failure_not_fatal (o : options_s) (dir base : String)
    (current_time finish_time : Nat) (basis : Int) (bs : BatchList) :
    (main_run false o dir base current_time finish_time basis bs).sink = .stderrStream ∧
    (main_run false o dir base current_time finish_time basis bs).diagnostics
      = ["ERROR: Couldn't open orangefs-purge log. Now logging to stderr!"] ∧
    (main_run true o dir base current_time finish_time basis bs).sink
      = .logFile (log_path o.log_dir current_time base) ∧
    (main_run true o dir base current_time finish_time basis bs).diagnostics = [] ∧
    (main_run false o dir base current_time finish_time basis bs).sinkLines
      = (main_run true o dir base current_time finish_time basis bs).sinkLines ∧
    (main_run false o dir base current_time finish_time basis bs).ret
      = (main_run true o dir base current_time finish_time basis bs).ret ∧
    (main_run false o dir base current_time finish_time basis bs).stats
      = (main_run true o dir base current_time finish_time basis bs).stats ∧
    (main_run false o dir base current_time finish_time basis bs).exitCode
      = (main_run true o dir base current_time finish_time basis bs).exitCode := by
  refine ⟨rfl, rfl, rfl, rfl, rfl, rfl, rfl, rfl⟩

/-- C5: fatal errors fail fast: a listing failure returns -1 for the level;
a classification failure aborts the level with -1 before the entry is
dispatched; a failed recursion into a subdirectory aborts the level with -1
without touching the remaining entries; an aborted entry loop aborts the
whole directory walk (also when further batches were pending); and a
non-zero walk result makes the run report purge_success=false and exit
non-zero. -/
theorem fatal_errors_fail_fast (o : options_s) (basis : Int) (path : String) (st : WalkSt) :
    (walk_rdp_and_purge o basis path st .fail = (-1, st)) ∧
    (∀ retc d_name obj rest,
      walk_rdp_entries o basis path retc st (.cons d_name false obj rest) = .inl (-1, st)) ∧
    (∀ retc d_name batches rest r st2,
      walk_rdp_and_purge o basis (path ++ "/" ++ d_name)
          { st with ps := { st.ps with dirs := st.ps.dirs + 1 }, visDirs := st.visDirs + 1 }
          batches = (r, st2) →
      r ≠ 0 →
      walk_rdp_entries o basis path retc st (.cons d_name true (.dir batches) rest)
        = .inl (-1, st2)) ∧
    (∀ es r st2 rest,
      walk_rdp_entries o basis path 0 st es = .inl (r, st2) →
      walk_rdp_and_purge o basis path st (.last es) = (r, st2) ∧
      walk_rdp_and_purge o basis path st (.more es rest) = (r, st2)) ∧
    (∀ r : Int, r ≠ 0 → purge_success r = false ∧ process_exit_code r = 1) := by
  refine ⟨rfl, ?_, ?_, ?_, ?_⟩
  · intro retc d_name obj rest
    simp [walk_rdp_entries]
  · intro retc d_name batches rest r st2 hwalk hr
    simp [walk_rdp_entries, walk_one, hwalk, hr]
  · intro es r st2 rest h
    constructor <;> simp [walk_rdp_and_purge, h]
  · intro r hr
    simp [purge_success, process_exit_code, hr]

/-- Witness for C5: with a concrete state, a failed stat aborts the level,
a subdirectory whose listing fails aborts the parent level, and the
resulting -1 yields purge_success=false and exit code 1. -/
theorem fatal_errors_fail_fast_inst :
    walk_rdp_entries ⟨0, none, false, false, false⟩ 10 "/p" 0 walkSt_init
        (.cons "x" false .symlink .nil) = .inl (-1, walkSt_init) ∧
    walk_rdp_entries ⟨0, none, false, false, false⟩ 10 "/p" 0 walkSt_init
        (.cons "d" true (.dir .fail) .nil)
      = .inl (-1, { walkSt_init with
                      ps := { walkSt_init.ps with dirs := walkSt_init.ps.dirs + 1 },
                      visDirs := walkSt_init.visDirs + 1 }) ∧
    purge_success (-1) = false ∧ process_exit_code (-1) = 1 :=
  ⟨(fatal_errors_fail_fast ⟨0, none, false, false, false⟩ 10 "/p" walkSt_init).2.1
      0 "x" .symlink .nil,
   (fatal_errors_fail_fast ⟨0, none, false, false, false⟩ 10 "/p" walkSt_init).2.2.1
      0 "d" .fail .nil (-1) _ rfl (by norm_num),
   ((fatal_errors_fail_fast ⟨0, none, false, false, false⟩ 10 "/p" walkSt_init).2.2.2.2
      (-1) (by norm_num)).1,
   ((fatal_errors_fail_fast ⟨0, none, false, false, false⟩ 10 "/p" walkSt_init).2.2.2.2
      (-1) (by norm_num)).2⟩

/-- A list with no zero byte has its first-zero index at its length. -/
theorem findIdx_zero_eq_length_of_ne (l : List Nat) (h : ∀ c ∈ l, c ≠ 0) :
    l.findIdx (fun c => c == 0) = l.length := by
  induction l with
  | nil => rfl
  | cons c t ih =>
    have hc : (c == 0) = false := by simpa using h c (List.mem_cons_self c t)
    simp [List.findIdx_cons, hc, ih fun x hx => h x (List.mem_cons_of_mem c hx)]

/-- Reading a C string out of a buffer that holds the list `l` (zero-free)
followed by a 0 terminator yields exactly `l`. -/
theorem readCStrFrom_of_matches (l : List Nat) :
    ∀ (buf : Nat → Nat) (i fuel : Nat),
      (∀ j, j < l.length → buf (i + j) = l.getD j 0) →
      (∀ c ∈ l, c ≠ 0) →
      buf (i + l.length) = 0 →
      l.length < fuel →
      readCStrFrom buf i fuel = l := by
  induction l with
  | nil =>
    intro buf i fuel _ _ hterm hfuel
    cases fuel with
    | zero => omega
    | succ f => simpa [readCStrFrom] using by simpa using hterm
  | cons c t ih =>
    intro buf i fuel hget hne hterm hfuel
    cases fuel with
    | zero => omega
    | succ f =>
      have hbi : buf i = c := by simpa using hget 0 (by simp)
      have hc : c ≠ 0 := hne c (List.mem_cons_self c t)
      rw [readCStrFrom, hbi, if_neg hc]
      congr 1
      apply ih buf (i + 1) f
      · intro j hj
        have := hget (j + 1) (by simpa using Nat.succ_lt_succ hj)
        simpa [Nat.add_assoc, Nat.add_comm 1 j] using this
      · intro x hx
        exact hne x (List.mem_cons_of_mem c hx)
      · have : i + 1 + t.length = i + (t.length + 1) := by omega
        rw [this]
        simpa using hterm
      · simpa using Nat.lt_of_succ_lt_succ (by simpa using hfuel)

/-- C3: for every parent path and child name, the truncate-then-append
construction produces exactly `parent ++ "/" ++ name` in the shared buffer,
for ANY residue the buffer holds beyond the parent from earlier (longer)
iterations: the mandatory zeroing of the bytes after the parent makes
stale suffix bytes unobservable. `buf` is the shared `dirent_path` buffer,
assumed only to hold the parent path at its start; the bounds say the
combined path fits the buffer (`PVFS_PATH_MAX`) and the strncpy limit
(`PATH_MAX`). -/
theorem child_path_built_exactly (pvfs_path_max path_max : Nat) (buf : Nat → Nat)
    (parent d_name : List Nat)
    (hbuf : ∀ j, j < parent.length → buf j = parent.getD j 0)
    (hpar : ∀ c ∈ parent, c ≠ 0)
    (hnm : ∀ c ∈ d_name, c ≠ 0)
    (hfit : parent.length + 1 + d_name.length < pvfs_path_max)
    (hfitx : parent.length + d_name.length + 2 ≤ path_max) :
    readCStr (build_child_path pvfs_path_max path_max buf parent.length d_name) pvfs_path_max
      = parent ++ slashByte :: d_name := by
  have hfi : d_name.findIdx (fun c => c == 0) = d_name.length :=
    findIdx_zero_eq_length_of_ne d_name hnm
  have hNn : d_name.length ≤ path_max - 1 - parent.length - 1 := by omega
  unfold readCStr
  apply readCStrFrom_of_matches
  · intro j hj
    simp only [List.length_append, List.length_cons] at hj
    simp only [Nat.zero_add]
    by_cases h1 : j < parent.length
    · rw [List.getD_append _ _ _ _ h1]
      simp only [build_child_path, strncpyAt, setByte, memsetZero]
      rw [if_neg (by omega), if_neg (by omega), if_neg (by omega)]
      exact hbuf j h1
    · by_cases h2 : j = parent.length
      · subst h2
        have hgl : (parent ++ slashByte :: d_name).getD parent.length 0 = slashByte := by
          rw [List.getD_append_right _ _ _ _ (Nat.le_refl _)]
          simp
        rw [hgl]
        simp only [build_child_path, strncpyAt, setByte, memsetZero]
        rw [if_neg (by omega)]
        simp
      · have hk : j - (parent.length + 1) < d_name.length := by omega
        have hgl : (parent ++ slashByte :: d_name).getD j 0
            = d_name.getD (j - (parent.length + 1)) 0 := by
          rw [List.getD_append_right _ _ _ _ (by omega)]
          have hm : j - parent.length = (j - (parent.length + 1)) + 1 := by omega
          rw [hm]
          simp
        rw [hgl]
        simp only [build_child_path, strncpyAt, setByte, memsetZero]
        rw [if_pos (by omega), if_pos (by rw [hfi]; omega)]
  · intro c hc
    rcases List.mem_append.mp hc with h | h
    · exact hpar c h
    · rcases List.mem_cons.mp h with h | h
      · subst h
        simp [slashByte]
      · exact hnm c h
  · simp only [Nat.zero_add, List.length_append, List.length_cons]
    simp only [build_child_path, strncpyAt, setByte, memsetZero]
    by_cases hcase : d_name.length < path_max - 1 - parent.length - 1
    · rw [if_pos (by omega), if_neg (by rw [hfi]; omega)]
    · rw [if_neg (by omega), if_neg (by omega), if_pos (by omega)]
  · simp only [List.length_append, List.length_cons]
    omega

/-- Witness for C3: the buffer still holds the earlier deeper path
`/a/b/code` (bytes 47,97,47,98,47,99,111,100,101); building the path for
parent `/a/b` (length 4) and shorter child name `de` yields exactly
`/a/b/de` with no residual bytes of the earlier path. -/
theorem child_path_built_exactly_inst :
    ([47, 97, 47, 98] : List Nat).length + 1 + ([100, 101] : List Nat).length < 64 ∧
    readCStr (build_child_path 64 64
        (fun i => ([47, 97, 47, 98, 47, 99, 111, 100, 101] : List Nat).getD i 0)
        ([47, 97, 47, 98] : List Nat).length [100, 101]) 64
      = [47, 97, 47, 98] ++ slashByte :: [100, 101] := by
  constructor
  · norm_num
  · exact child_path_built_exactly 64 64
      (fun i => ([47, 97, 47, 98, 47, 99, 111, 100, 101] : List Nat).getD i 0)
      [47, 97, 47, 98] [100, 101]
      (by decide) (by decide) (by decide) (by norm_num) (by norm_num)

/-- The accounting relation is reflexive. -/
theorem accounted_refl (s : WalkSt) : Accounted s s := by
  unfold Accounted StatsMono
  omega

/-- The accounting relation is transitive. -/
theorem accounted_trans {a b c : WalkSt} (h1 : Accounted a b) (h2 : Accounted b c) :
    Accounted a c := by
  unfold Accounted StatsMono at h1 h2 ⊢
  omega

mutual

/-- Dispatching one entry preserves the accounting relation. -/
theorem accounted_walk_one (o : options_s) (basis : Int) (path : String) (st : WalkSt)
    (d_name : String) (obj : FsObj) :
    Accounted st (stepState (walk_one o basis path st d_name obj)) := by
  cases obj with
  | file size atime mtime removeOk =>
    simp only [walk_one]
    split_ifs <;> (unfold Accounted StatsMono; dsimp only [stepState]; omega)
  | dir batches =>
    have h1 : Accounted
        { st with ps := { st.ps with dirs := st.ps.dirs + 1 }, visDirs := st.visDirs + 1 }
        (walk_rdp_and_purge o basis (path ++ "/" ++ d_name)
          { st with ps := { st.ps with dirs := st.ps.dirs + 1 }, visDirs := st.visDirs + 1 }
          batches).2 :=
      accounted_walk_batches o basis (path ++ "/" ++ d_name)
        { st with ps := { st.ps with dirs := st.ps.dirs + 1 }, visDirs := st.visDirs + 1 }
        batches
    have h0 : Accounted st
        { st with ps := { st.ps with dirs := st.ps.dirs + 1 }, visDirs := st.visDirs + 1 } := by
      unfold Accounted StatsMono
      dsimp only
      omega
    simp only [walk_one]
    rcases hw : walk_rdp_and_purge o basis (path ++ "/" ++ d_name)
        { st with ps := { st.ps with dirs := st.ps.dirs + 1 }, visDirs := st.visDirs + 1 }
        batches with ⟨r, st2⟩
    rw [hw] at h1
    by_cases hr : r = 0 <;> simp only [hw, hr, if_pos, if_neg, reduceIte, stepState] <;>
      exact accounted_trans h0 h1
  | symlink =>
    have : Accounted st { st with ps := { st.ps with lnks := st.ps.lnks + 1 } } := by
      unfold Accounted StatsMono
      dsimp only
      omega
    simpa [walk_one, stepState] using this
  | otherKind =>
    have : Accounted st { st with ps := { st.ps with unknown := st.ps.unknown + 1 } } := by
      unfold Accounted StatsMono
      dsimp only
      omega
    simpa [walk_one, stepState] using this

/-- Processing a batch's entry list preserves the accounting relation,
for every incoming `ret` value. -/
theorem accounted_walk_entries (o : options_s) (basis : Int) (path : String) (retc : Int)
    (st : WalkSt) (es : EntryList) :
    Accounted st (stepState (walk_rdp_entries o basis path retc st es)) := by
  cases es with
  | nil => simpa [walk_rdp_entries, stepState] using accounted_refl st
  | cons d_name statOk obj rest =>
    by_cases hs : statOk = true
    · rcases hw : walk_one o basis path st d_name obj with ⟨r2, s2⟩ | ⟨re, st'⟩
      · have h1 := accounted_walk_one o basis path st d_name obj
        rw [hw] at h1
        simp only [walk_rdp_entries, hs, if_true, hw]
        simpa [stepState] using h1
      · have h1 := accounted_walk_one o basis path st d_name obj
        rw [hw] at h1
        have h2 := accounted_walk_entries o basis path re st' rest
        simp only [walk_rdp_entries, hs, if_true, hw]
        exact accounted_trans (by simpa [stepState] using h1) h2
    · have hs' : statOk = false := by simpa using hs
      subst hs'
      simpa [walk_rdp_entries, stepState] using accounted_refl st

/-- A whole directory-level walk preserves the accounting relation. -/
theorem accounted_walk_batches (o : options_s) (basis : Int) (path : String) (st : WalkSt)
    (bs : BatchList) :
    Accounted st (walk_rdp_and_purge o basis path st bs).2 := by
  cases bs with
  | fail => simpa [walk_rdp_and_purge] using accounted_refl st
  | last es =>
    have h1 := accounted_walk_entries o basis path 0 st es
    rcases hw : walk_rdp_entries o basis path 0 st es with ⟨r, s⟩ | ⟨re, st'⟩ <;>
      rw [hw] at h1 <;>
      simpa [walk_rdp_and_purge, hw, stepState] using h1
  | more es rest =>
    have h1 := accounted_walk_entries o basis path 0 st es
    rcases hw : walk_rdp_entries o basis path 0 st es with ⟨r, s⟩ | ⟨re, st'⟩
    · rw [hw] at h1
      simpa [walk_rdp_and_purge, hw, stepState] using h1
    · rw [hw] at h1
      have h2 := accounted_walk_batches o basis path st' rest
      simp only [walk_rdp_and_purge, hw]
      exact accounted_trans (by simpa [stepState] using h1) h2

end

/-- C2: statistics accounting invariant: over any directory walk all nine
counters only grow, the growth of removed+failed+kept files equals the
number of regular-file entries dispatched (ghost `visFiles`), the growth of
the removed+failed+kept byte counters equals those files' bytes (ghost
`visBytes`), and the growth of the directory counter equals the number of
directory entries dispatched (ghost `visDirs`) — also for walks aborted by
a later failure, since the statement holds for every batch list, including
ones ending in failure. -/
theorem walk_statistics_accounting (o : options_s) (basis : Int) (path : String)
    (st : WalkSt) (bs : BatchList) :
    (st.ps.rm_bytes ≤ (walk_rdp_and_purge o basis path st bs).2.ps.rm_bytes ∧
     st.ps.rm_fils ≤ (walk_rdp_and_purge o basis path st bs).2.ps.rm_fils ∧
     st.ps.frm_bytes ≤ (walk_rdp_and_purge o basis path st bs).2.ps.frm_bytes ∧
     st.ps.frm_fils ≤ (walk_rdp_and_purge o basis path st bs).2.ps.frm_fils ∧
     st.ps.kept_bytes ≤ (walk_rdp_and_purge o basis path st bs).2.ps.kept_bytes ∧
     st.ps.kept_fils ≤ (walk_rdp_and_purge o basis path st bs).2.ps.kept_fils ∧
     st.ps.lnks ≤ (walk_rdp_and_purge o basis path st bs).2.ps.lnks ∧
     st.ps.dirs ≤ (walk_rdp_and_purge o basis path st bs).2.ps.dirs ∧
     st.ps.unknown ≤ (walk_rdp_and_purge o basis path st bs).2.ps.unknown) ∧
    (walk_rdp_and_purge o basis path st bs).2.ps.rm_fils
        + (walk_rdp_and_purge o basis path st bs).2.ps.frm_fils
        + (walk_rdp_and_purge o basis path st bs).2.ps.kept_fils
        + st.visFiles
      = st.ps.rm_fils + st.ps.frm_fils + st.ps.kept_fils
        + (walk_rdp_and_purge o basis path st bs).2.visFiles ∧
    (walk_rdp_and_purge o basis path st bs).2.ps.rm_bytes
        + (walk_rdp_and_purge o basis path st bs).2.ps.frm_bytes
        + (walk_rdp_and_purge o basis path st bs).2.ps.kept_bytes
        + st.visBytes
      = st.ps.rm_bytes + st.ps.frm_bytes + st.ps.kept_bytes
        + (walk_rdp_and_purge o basis path st bs).2.visBytes ∧
    (walk_rdp_and_purge o basis path st bs).2.ps.dirs + st.visDirs
      = st.ps.dirs + (walk_rdp_and_purge o basis path st bs).2.visDirs := by
  have h := accounted_walk_batches o basis path st bs
  unfold Accounted StatsMono at h
  omega

mutual

/-- Every basis value consulted while dispatching one entry is either an
earlier one or the walk's single `basis` parameter. -/
theorem basis_used_walk_one (o : options_s) (basis : Int) (path : String) (st : WalkSt)
    (d_name : String) (obj : FsObj) :
    ∀ b ∈ (stepState (walk_one o basis path st d_name obj)).basisUsed,
      b ∈ st.basisUsed ∨ b = basis := by
  cases obj with
  | file size atime mtime removeOk =>
    simp only [walk_one]
    split_ifs <;> (dsimp only [stepState]; intro b hb; simpa using hb)
  | dir batches =>
    have h1 := basis_used_walk_batches o basis (path ++ "/" ++ d_name)
        { st with ps := { st.ps with dirs := st.ps.dirs + 1 }, visDirs := st.visDirs + 1 }
        batches
    simp only [walk_one]
    rcases hw : walk_rdp_and_purge o basis (path ++ "/" ++ d_name)
        { st with ps := { st.ps with dirs := st.ps.dirs + 1 }, visDirs := st.visDirs + 1 }
        batches with ⟨r, st2⟩
    rw [hw] at h1
    by_cases hr : r = 0 <;> simp only [hw, hr, reduceIte, stepState] <;> exact h1
  | symlink =>
    simp only [walk_one, stepState]
    intro b hb
    exact Or.inl hb
  | otherKind =>
    simp only [walk_one, stepState]
    intro b hb
    exact Or.inl hb

/-- Every basis value consulted while processing a batch's entries is
either an earlier one or the walk's single `basis` parameter. -/
theorem basis_used_walk_entries (o : options_s) (basis : Int) (path : String) (retc : Int)
    (st : WalkSt) (es : EntryList) :
    ∀ b ∈ (stepState (walk_rdp_entries o basis path retc st es)).basisUsed,
      b ∈ st.basisUsed ∨ b = basis := by
  cases es with
  | nil =>
    simp only [walk_rdp_entries, stepState]
    intro b hb
    exact Or.inl hb
  | cons d_name statOk obj rest =>
    by_cases hs : statOk = true
    · rcases hw : walk_one o basis path st d_name obj with ⟨r2, s2⟩ | ⟨re, st'⟩
      · have h1 := basis_used_walk_one o basis path st d_name obj
        rw [hw] at h1
        simp only [walk_rdp_entries, hs, if_true, hw]
        simpa [stepState] using h1
      · have h1 := basis_used_walk_one o basis path st d_name obj
        rw [hw] at h1
        have h2 := basis_used_walk_entries o basis path re st' rest
        simp only [walk_rdp_entries, hs, if_true, hw]
        have h1' : ∀ b ∈ st'.basisUsed, b ∈ st.basisUsed ∨ b = basis := by
          simpa [stepState] using h1
        intro b hb
        rcases h2 b hb with h | h
        · exact h1' b h
        · exact Or.inr h
    · have hs' : statOk = false := by simpa using hs
      subst hs'
      simp only [walk_rdp_entries, stepState, Bool.false_eq_true, if_false]
      intro b hb
      exact Or.inl hb

/-- Every basis value consulted during a directory-level walk is either an
earlier one or the walk's single `basis` parameter. -/
theorem basis_used_walk_batches (o : options_s) (basis : Int) (path : String) (st : WalkSt)
    (bs : BatchList) :
    ∀ b ∈ (walk_rdp_and_purge o basis path st bs).2.basisUsed,
      b ∈ st.basisUsed ∨ b = basis := by
  cases bs with
  | fail =>
    simp only [walk_rdp_and_purge]
    intro b hb
    exact Or.inl hb
  | last es =>
    have h1 := basis_used_walk_entries o basis path 0 st es
    rcases hw : walk_rdp_entries o basis path 0 st es with ⟨r, s⟩ | ⟨re, st'⟩ <;>
      rw [hw] at h1 <;>
      (simp only [walk_rdp_and_purge, hw]; simpa [stepState] using h1)
  | more es rest =>
    have h1 := basis_used_walk_entries o basis path 0 st es
    rcases hw : walk_rdp_entries o basis path 0 st es with ⟨r, s⟩ | ⟨re, st'⟩
    · rw [hw] at h1
      simp only [walk_rdp_and_purge, hw]
      simpa [stepState] using h1
    · rw [hw] at h1
      have h2 := basis_used_walk_batches o basis path st' rest
      simp only [walk_rdp_and_purge, hw]
      have h1' : ∀ b ∈ st'.basisUsed, b ∈ st.basisUsed ∨ b = basis := by
        simpa [stepState] using h1
      intro b hb
      rcases h2 b hb with h | h
      · exact h1' b h
      · exact Or.inr h

end

/-- C8: the removal basis time is computed exactly once per run before the
walk: current time minus 31 days (2678400 seconds) when no override is
given, the override value verbatim otherwise; and every eligibility
decision of the run consults exactly that one value (ghost `basisUsed` of a
run started from the initial state holds nothing but it). -/
theorem removal_basis_time_fixity :
    (∀ (opts : options_s) (current_time : Int), opts.removal_basis_time = 0 →
      compute_removal_basis_time opts current_time = current_time - 2678400) ∧
    (∀ (opts : options_s) (current_time : Int), opts.removal_basis_time ≠ 0 →
      compute_removal_basis_time opts current_time = opts.removal_basis_time) ∧
    (∀ (opts : options_s) (current_time : Int) (path : String) (bs : BatchList),
      ∀ b ∈ (walk_rdp_and_purge opts (compute_removal_basis_time opts current_time)
              path walkSt_init bs).2.basisUsed,
        b = compute_removal_basis_time opts current_time) := by
  refine ⟨?_, ?_, ?_⟩
  · intro opts t h
    simp [compute_removal_basis_time, h, THIRTYONE_DAYS_SECS]
  · intro opts t h
    simp [compute_removal_basis_time, h]
  · intro opts t path bs b hb
    rcases basis_used_walk_batches opts (compute_removal_basis_time opts t) path
        walkSt_init bs b hb with h | h
    · simp [walkSt_init] at h
    · exact h

/-- Witness for C8: with no override the basis is start minus 2678400
seconds; with override 10, a run over one old file consults exactly the
value 10. -/
theorem removal_basis_time_fixity_inst :
    compute_removal_basis_time ⟨0, none, false, false, false⟩ 2678400 = 0 ∧
    (10 : Int) = compute_removal_basis_time ⟨10, none, false, false, false⟩ 0 := by
  constructor
  · have h := removal_basis_time_fixity.1 ⟨0, none, false, false, false⟩ 2678400 rfl
    rw [h]
    norm_num
  · exact removal_basis_time_fixity.2.2 ⟨10, none, false, false, false⟩ 0 "/r"
      (.last (.cons "f" true (.file 5 0 0 true) .nil)) 10 (by
        simp [walk_rdp_and_purge, walk_rdp_entries, walk_one, is_eligible_for_removal,
              walkSt_init, pstats_init, compute_removal_basis_time])


/-- `AgreesExceptRemoveCalls` is reflexive. -/
theorem agrees_refl (s : WalkSt) : AgreesExceptRemoveCalls s s := by
  unfold AgreesExceptRemoveCalls
  exact ⟨rfl, rfl, rfl, rfl, rfl, rfl⟩

/-- Introduction form of `SumAgrees` for two continuing outcomes. -/
theorem sumAgrees_inr {c : Nat} {r1 r2 : Int} {s1 s2 : WalkSt}
    (hr : r1 = r2) (h : AgreesExceptRemoveCalls s1 s2) (hc : s1.removeCalls = c) :
    SumAgrees c (.inr (r1, s1)) (.inr (r2, s2)) := ⟨hr, h, hc⟩

/-- Introduction form of `SumAgrees` for two aborting outcomes. -/
theorem sumAgrees_inl {c : Nat} {r1 r2 : Int} {s1 s2 : WalkSt}
    (hr : r1 = r2) (h : AgreesExceptRemoveCalls s1 s2) (hc : s1.removeCalls = c) :
    SumAgrees c (.inl (r1, s1)) (.inl (r2, s2)) := ⟨hr, h, hc⟩

/-- Elimination form of `SumAgrees` for two aborting outcomes. -/
theorem sumAgrees_elim_inl {c : Nat} {r1 r2 : Int} {s1 s2 : WalkSt}
    (h : SumAgrees c (.inl (r1, s1)) (.inl (r2, s2))) :
    r1 = r2 ∧ AgreesExceptRemoveCalls s1 s2 ∧ s1.removeCalls = c := h

/-- Elimination form of `SumAgrees` for two continuing outcomes. -/
theorem sumAgrees_elim_inr {c : Nat} {r1 r2 : Int} {s1 s2 : WalkSt}
    (h : SumAgrees c (.inr (r1, s1)) (.inr (r2, s2))) :
    r1 = r2 ∧ AgreesExceptRemoveCalls s1 s2 ∧ s1.removeCalls = c := h

/-- Mixed `SumAgrees` outcomes are impossible. -/
theorem sumAgrees_not_inl_inr {c : Nat} {r1 r2 : Int} {s1 s2 : WalkSt}
    (h : SumAgrees c (.inl (r1, s1)) (.inr (r2, s2))) : False := h

/-- Mixed `SumAgrees` outcomes are impossible. -/
theorem sumAgrees_not_inr_inl {c : Nat} {r1 r2 : Int} {s1 s2 : WalkSt}
    (h : SumAgrees c (.inr (r1, s1)) (.inl (r2, s2))) : False := h

/-- Introduction form of `PairAgrees`. -/
theorem pairAgrees_mk {c : Nat} {r1 r2 : Int} {s1 s2 : WalkSt}
    (hr : r1 = r2) (h : AgreesExceptRemoveCalls s1 s2) (hc : s1.removeCalls = c) :
    PairAgrees c (r1, s1) (r2, s2) := ⟨hr, h, hc⟩

/-- Elimination form of `PairAgrees`. -/
theorem pairAgrees_elim {c : Nat} {r1 r2 : Int} {s1 s2 : WalkSt}
    (h : PairAgrees c (r1, s1) (r2, s2)) :
    r1 = r2 ∧ AgreesExceptRemoveCalls s1 s2 ∧ s1.removeCalls = c := h

mutual

/-- Dispatching one entry under dry-run versus for real: when the store's
removals would all succeed, both runs take the same branches, update the
statistics and the log identically, and the dry-run side issues no remove
call. -/
theorem dryrun_walk_one (o : options_s) (basis : Int) (path : String) (st1 st2 : WalkSt)
    (d_name : String) (obj : FsObj)
    (hag : AgreesExceptRemoveCalls st1 st2) (hok : removalsOkObj obj = true) :
    SumAgrees st1.removeCalls
      (walk_one { o with dry_run := true } basis path st1 d_name obj)
      (walk_one { o with dry_run := false } basis path st2 d_name obj) := by
  obtain ⟨hps, hlog, hvf, hvb, hvd, hbu⟩ := hag
  cases obj with
  | file size atime mtime removeOk =>
    have hok' : removeOk = true := hok
    subst hok'
    by_cases he : is_eligible_for_removal atime mtime basis = true <;>
      by_cases hlr : o.log_removed_files = true <;>
        by_cases hlk : o.log_kept_files = true
    all_goals simp [walk_one, he, hlr, hlk]
    all_goals refine sumAgrees_inr rfl ?_ rfl
    all_goals unfold AgreesExceptRemoveCalls
    all_goals dsimp only
    all_goals simp [hps, hlog, hvf, hvb, hvd, hbu]
  | dir batches =>
    have hok' : removalsOkBatches batches = true := hok
    have hagAB : AgreesExceptRemoveCalls
        { st1 with ps := { st1.ps with dirs := st1.ps.dirs + 1 }, visDirs := st1.visDirs + 1 }
        { st2 with ps := { st2.ps with dirs := st2.ps.dirs + 1 }, visDirs := st2.visDirs + 1 } := by
      unfold AgreesExceptRemoveCalls
      dsimp only
      exact ⟨by rw [hps], hlog, hvf, hvb, by rw [hvd], hbu⟩
    have hrec := dryrun_walk_batches o basis (path ++ "/" ++ d_name)
        { st1 with ps := { st1.ps with dirs := st1.ps.dirs + 1 }, visDirs := st1.visDirs + 1 }
        { st2 with ps := { st2.ps with dirs := st2.ps.dirs + 1 }, visDirs := st2.visDirs + 1 }
        batches hagAB hok'
    rcases hw1 : walk_rdp_and_purge { o with dry_run := true } basis (path ++ "/" ++ d_name)
        { st1 with ps := { st1.ps with dirs := st1.ps.dirs + 1 }, visDirs := st1.visDirs + 1 }
        batches with ⟨r1, s1⟩
    rcases hw2 : walk_rdp_and_purge { o with dry_run := false } basis (path ++ "/" ++ d_name)
        { st2 with ps := { st2.ps with dirs := st2.ps.dirs + 1 }, visDirs := st2.visDirs + 1 }
        batches with ⟨r2, s2⟩
    rw [hw1, hw2] at hrec
    obtain ⟨hr, hagS, hc⟩ := pairAgrees_elim hrec
    subst hr
    by_cases hr0 : r1 = 0
    · simp only [walk_one]
      simp [hw1, hw2, hr0]
      exact sumAgrees_inr rfl hagS hc
    · simp only [walk_one]
      simp [hw1, hw2, hr0]
      exact sumAgrees_inl rfl hagS hc
  | symlink =>
    simp only [walk_one]
    refine sumAgrees_inr rfl ?_ rfl
    unfold AgreesExceptRemoveCalls
    dsimp only
    exact ⟨by rw [hps], hlog, hvf, hvb, hvd, hbu⟩
  | otherKind =>
    simp only [walk_one]
    refine sumAgrees_inr rfl ?_ rfl
    unfold AgreesExceptRemoveCalls
    dsimp only
    exact ⟨by rw [hps], hlog, hvf, hvb, hvd, hbu⟩

/-- Processing a batch's entries under dry-run versus for real. -/
theorem dryrun_walk_entries (o : options_s) (basis : Int) (path : String) (retc : Int)
    (st1 st2 : WalkSt) (es : EntryList)
    (hag : AgreesExceptRemoveCalls st1 st2) (hok : removalsOkEntries es = true) :
    SumAgrees st1.removeCalls
      (walk_rdp_entries { o with dry_run := true } basis path retc st1 es)
      (walk_rdp_entries { o with dry_run := false } basis path retc st2 es) := by
  cases es with
  | nil =>
    simp only [walk_rdp_entries]
    exact sumAgrees_inr rfl hag rfl
  | cons d_name statOk obj rest =>
    have hok1 : removalsOkObj obj = true := by
      have h := hok
      simp only [removalsOkEntries, Bool.and_eq_true] at h
      exact h.1
    have hok2 : removalsOkEntries rest = true := by
      have h := hok
      simp only [removalsOkEntries, Bool.and_eq_true] at h
      exact h.2
    by_cases hs : statOk = true
    · have h1 := dryrun_walk_one o basis path st1 st2 d_name obj ⟨by
        obtain ⟨hps, hlog, hvf, hvb, hvd, hbu⟩ := hag
        exact hps, hag.2.1, hag.2.2.1, hag.2.2.2.1, hag.2.2.2.2.1, hag.2.2.2.2.2⟩ hok1
      rcases hw1 : walk_one { o with dry_run := true } basis path st1 d_name obj
          with ⟨r1, s1⟩ | ⟨re1, s1⟩
      · rcases hw2 : walk_one { o with dry_run := false } basis path st2 d_name obj
            with ⟨r2, s2⟩ | ⟨re2, s2⟩
        · rw [hw1, hw2] at h1
          obtain ⟨hr, hagS, hc⟩ := sumAgrees_elim_inl h1
          simp [walk_rdp_entries, hs, hw1, hw2]
          exact sumAgrees_inl hr hagS hc
        · rw [hw1, hw2] at h1
          exact (sumAgrees_not_inl_inr h1).elim
      · rcases hw2 : walk_one { o with dry_run := false } basis path st2 d_name obj
            with ⟨r2, s2⟩ | ⟨re2, s2⟩
        · rw [hw1, hw2] at h1
          exact (sumAgrees_not_inr_inl h1).elim
        · rw [hw1, hw2] at h1
          obtain ⟨hre, hagS, hc⟩ := sumAgrees_elim_inr h1
          subst hre
          have h2 := dryrun_walk_entries o basis path re1 s1 s2 rest hagS hok2
          rw [hc] at h2
          simp only [walk_rdp_entries, hs, if_true, hw1, hw2]
          simpa using h2
    · have hs' : statOk = false := by simpa using hs
      subst hs'
      simp only [walk_rdp_entries, Bool.false_eq_true, if_false]
      exact sumAgrees_inl rfl hag rfl

/-- A whole directory-level walk under dry-run versus for real. -/
theorem dryrun_walk_batches (o : options_s) (basis : Int) (path : String) (st1 st2 : WalkSt)
    (bs : BatchList)
    (hag : AgreesExceptRemoveCalls st1 st2) (hok : removalsOkBatches bs = true) :
    PairAgrees st1.removeCalls
      (walk_rdp_and_purge { o with dry_run := true } basis path st1 bs)
      (walk_rdp_and_purge { o with dry_run := false } basis path st2 bs) := by
  cases bs with
  | fail =>
    simp only [walk_rdp_and_purge]
    exact pairAgrees_mk rfl hag rfl
  | last es =>
    have hok' : removalsOkEntries es = true := hok
    have h1 := dryrun_walk_entries o basis path 0 st1 st2 es hag hok'
    rcases hw1 : walk_rdp_entries { o with dry_run := true } basis path 0 st1 es
        with ⟨r1, s1⟩ | ⟨re1, s1⟩
    · rcases hw2 : walk_rdp_entries { o with dry_run := false } basis path 0 st2 es
          with ⟨r2, s2⟩ | ⟨re2, s2⟩
      · rw [hw1, hw2] at h1
        obtain ⟨hr, hagS, hc⟩ := sumAgrees_elim_inl h1
        simp only [walk_rdp_and_purge, hw1, hw2]
        exact pairAgrees_mk hr hagS hc
      · rw [hw1, hw2] at h1
        exact (sumAgrees_not_inl_inr h1).elim
    · rcases hw2 : walk_rdp_entries { o with dry_run := false } basis path 0 st2 es
          with ⟨r2, s2⟩ | ⟨re2, s2⟩
      · rw [hw1, hw2] at h1
        exact (sumAgrees_not_inr_inl h1).elim
      · rw [hw1, hw2] at h1
        obtain ⟨hre, hagS, hc⟩ := sumAgrees_elim_inr h1
        simp only [walk_rdp_and_purge, hw1, hw2]
        exact pairAgrees_mk hre hagS hc
  | more es rest =>
    have hok1 : removalsOkEntries es = true := by
      have h := hok
      simp only [removalsOkBatches, Bool.and_eq_true] at h
      exact h.1
    have hok2 : removalsOkBatches rest = true := by
      have h := hok
      simp only [removalsOkBatches, Bool.and_eq_true] at h
      exact h.2
    have h1 := dryrun_walk_entries o basis path 0 st1 st2 es hag hok1
    rcases hw1 : walk_rdp_entries { o with dry_run := true } basis path 0 st1 es
        with ⟨r1, s1⟩ | ⟨re1, s1⟩
    · rcases hw2 : walk_rdp_entries { o with dry_run := false } basis path 0 st2 es
          with ⟨r2, s2⟩ | ⟨re2, s2⟩
      · rw [hw1, hw2] at h1
        obtain ⟨hr, hagS, hc⟩ := sumAgrees_elim_inl h1
        simp only [walk_rdp_and_purge, hw1, hw2]
        exact pairAgrees_mk hr hagS hc
      · rw [hw1, hw2] at h1
        exact (sumAgrees_not_inl_inr h1).elim
    · rcases hw2 : walk_rdp_entries { o with dry_run := false } basis path 0 st2 es
          with ⟨r2, s2⟩ | ⟨re2, s2⟩
      · rw [hw1, hw2] at h1
        exact (sumAgrees_not_inr_inl h1).elim
      · rw [hw1, hw2] at h1
        obtain ⟨hre, hagS, hc⟩ := sumAgrees_elim_inr h1
        have h2 := dryrun_walk_batches o basis path s1 s2 rest hagS hok2
        rw [hc] at h2
        simpa [walk_rdp_and_purge, hw1, hw2] using h2

end

/-- C6: dry-run equivalence: over a fixed tree snapshot on which the
store's delete calls would all succeed, the dry run and the real run
return the same result, classify the same files the same way (identical
nine counters and identical per-file R/K log lines), while the dry run
invokes the delete primitive zero times (its remove-call count stays at
its starting value). -/
theorem dry_run_equivalence (o : options_s) (basis : Int) (path : String) (st : WalkSt)
    (bs : BatchList) (hok : removalsOkBatches bs = true) :
    (walk_rdp_and_purge { o with dry_run := true } basis path st bs).1
      = (walk_rdp_and_purge { o with dry_run := false } basis path st bs).1 ∧
    (walk_rdp_and_purge { o with dry_run := true } basis path st bs).2.ps
      = (walk_rdp_and_purge { o with dry_run := false } basis path st bs).2.ps ∧
    (walk_rdp_and_purge { o with dry_run := true } basis path st bs).2.log
      = (walk_rdp_and_purge { o with dry_run := false } basis path st bs).2.log ∧
    (walk_rdp_and_purge { o with dry_run := true } basis path st bs).2.removeCalls
      = st.removeCalls := by
  have h := dryrun_walk_batches o basis path st st bs (agrees_refl st) hok
  obtain ⟨hr, hag, hc⟩ := h
  obtain ⟨hps, hlog, _, _, _, _⟩ := hag
  exact ⟨hr, hps, hlog, hc⟩

/-- Witness for C6: a two-file tree (one eligible, one recent) under
options with both log toggles on: dry run and real run agree on result,
counters and log, and the dry run makes zero remove calls. -/
theorem dry_run_equivalence_inst :
    removalsOkBatches
        (.last (.cons "old" true (.file 5 0 0 true)
          (.cons "new" true (.file 7 99 0 true) .nil))) = true ∧
    ((walk_rdp_and_purge { (⟨0, none, false, true, true⟩ : options_s) with dry_run := true }
        10 "/r" walkSt_init
        (.last (.cons "old" true (.file 5 0 0 true)
          (.cons "new" true (.file 7 99 0 true) .nil)))).1
      = (walk_rdp_and_purge { (⟨0, none, false, true, true⟩ : options_s) with dry_run := false }
        10 "/r" walkSt_init
        (.last (.cons "old" true (.file 5 0 0 true)
          (.cons "new" true (.file 7 99 0 true) .nil)))).1 ∧
    (walk_rdp_and_purge { (⟨0, none, false, true, true⟩ : options_s) with dry_run := true }
        10 "/r" walkSt_init
        (.last (.cons "old" true (.file 5 0 0 true)
          (.cons "new" true (.file 7 99 0 true) .nil)))).2.ps
      = (walk_rdp_and_purge { (⟨0, none, false, true, true⟩ : options_s) with dry_run := false }
        10 "/r" walkSt_init
        (.last (.cons "old" true (.file 5 0 0 true)
          (.cons "new" true (.file 7 99 0 true) .nil)))).2.ps ∧
    (walk_rdp_and_purge { (⟨0, none, false, true, true⟩ : options_s) with dry_run := true }
        10 "/r" walkSt_init
        (.last (.cons "old" true (.file 5 0 0 true)
          (.cons "new" true (.file 7 99 0 true) .nil)))).2.log
      = (walk_rdp_and_purge { (⟨0, none, false, true, true⟩ : options_s) with dry_run := false }
        10 "/r" walkSt_init
        (.last (.cons "old" true (.file 5 0 0 true)
          (.cons "new" true (.file 7 99 0 true) .nil)))).2.log ∧
    (walk_rdp_and_purge { (⟨0, none, false, true, true⟩ : options_s) with dry_run := true }
        10 "/r" walkSt_init
        (.last (.cons "old" true (.file 5 0 0 true)
          (.cons "new" true (.file 7 99 0 true) .nil)))).2.removeCalls
      = walkSt_init.removeCalls) :=
  ⟨rfl,
   dry_run_equivalence ⟨0, none, false, true, true⟩ 10 "/r" walkSt_init
     (.last (.cons "old" true (.file 5 0 0 true)
       (.cons "new" true (.file 7 99 0 true) .nil))) rfl⟩

/-- C4: the claim describes the spec's intent, but the code diverges at a
corner case. In the C, `ret` is the walker's single status variable: a
failed `PVFS_sys_remove` leaves it negative and `continue` moves on
(part_001 lines 571-586); it is only overwritten by the next entry's
`sys_attr_to_stat` or the next batch's `PVFS_sys_readdirplus`. When the
failing file is the LAST entry of the directory's FINAL listing batch, the
`PVFS_ITERATE_END` break returns the stale negative value (lines 658-671),
so main logs purge_success=false and exits 1 (lines 918-928) — and for a
subdirectory the parent aborts the entire walk (lines 618-623) — even
though the file was duly booked under failed-to-remove and the walk had
continued past it. This theorem evaluates the model at the failing input:
the one-file final batch returns -1 with the file under failed-to-remove,
giving purge_success=false and exit code 1; with any further entry after
the failure the stale value is overwritten and the same failure is
recoverable as the claim states. -/
theorem removal_failure_stale_ret :
    (walk_rdp_and_purge ⟨0, none, false, false, false⟩ 10 "/r" walkSt_init
        (.last (.cons "f" true (.file 5 0 0 false) .nil))).1 = -1 ∧
    (walk_rdp_and_purge ⟨0, none, false, false, false⟩ 10 "/r" walkSt_init
        (.last (.cons "f" true (.file 5 0 0 false) .nil))).2.ps.frm_fils = 1 ∧
    (walk_rdp_and_purge ⟨0, none, false, false, false⟩ 10 "/r" walkSt_init
        (.last (.cons "f" true (.file 5 0 0 false) .nil))).2.ps.frm_bytes = 5 ∧
    (walk_rdp_and_purge ⟨0, none, false, false, false⟩ 10 "/r" walkSt_init
        (.last (.cons "f" true (.file 5 0 0 false) .nil))).2.ps.rm_fils = 0 ∧
    (walk_rdp_and_purge ⟨0, none, false, false, false⟩ 10 "/r" walkSt_init
        (.last (.cons "f" true (.file 5 0 0 false) .nil))).2.ps.kept_fils = 0 ∧
    purge_success (-1) = false ∧
    process_exit_code (-1) = 1 ∧
    (walk_rdp_and_purge ⟨0, none, false, false, false⟩ 10 "/r" walkSt_init
        (.last (.cons "f" true (.file 5 0 0 false)
          (.cons "s" true .symlink .nil)))).1 = 0 ∧
    (walk_rdp_and_purge ⟨0, none, false, false, false⟩ 10 "/r" walkSt_init
        (.last (.cons "f" true (.file 5 0 0 false)
          (.cons "s" true .symlink .nil)))).2.ps.frm_fils = 1 := by
  refine ⟨?_, ?_, ?_, ?_, ?_, by decide, by decide, ?_, ?_⟩ <;>
    simp [walk_rdp_and_purge, walk_rdp_entries, walk_one, is_eligible_for_removal,
          walkSt_init, pstats_init]
